import Mathlib

/-!
Shallow embedding of the two-tier caching engine of
`src/core/cache.py` (classes `TTLCache`, `FileCache`, `CacheManager`
and the key-derivation helpers), together with theorems settling the
specification claims about it.

Modelling conventions:
* Python `dict`s are insertion-ordered association lists
  (`List (String × β)`), with `d[k] = v` updating the first occurrence
  in place and appending otherwise, exactly like CPython dicts.
* Wall-clock time (`time.time()` / `datetime.now()`) is an explicit
  `now : Nat` argument (seconds).
* A Python value that may be `None` is an `Option`; `none` is `None`.
* `hashlib.md5(...).hexdigest()` is modelled by `md5hex`, an abstract
  deterministic injective renaming of strings (the identity): every
  claim depends only on the digest being a deterministic function that
  does not collide on the concretely occurring keys.
-/

namespace Catalog

namespace PyDict

/-- Python `d.get(k)` / `k in d` lookup on an insertion-ordered dict:
the first binding of `k` wins. -/
def lookup {β : Type} (d : List (String × β)) (k : String) : Option β :=
  match d with
  | [] => none
  | (k', v) :: rest => if k' = k then some v else lookup rest k

/-- Python `d[k] = v`: replace the first binding of `k` in place, or
append a new binding at the end. -/
def insert {β : Type} (d : List (String × β)) (k : String) (v : β) :
    List (String × β) :=
  match d with
  | [] => [(k, v)]
  | (k', v') :: rest =>
      if k' = k then (k, v) :: rest else (k', v') :: insert rest k v

/-- Python `d.pop(k, None)`: drop the binding(s) of `k`. -/
def pop {β : Type} (d : List (String × β)) (k : String) :
    List (String × β) :=
  d.filter (fun p => !(p.1 = k : Bool))

end PyDict

/-- A memory-tier cache entry: the dict `{'value': ..., 'timestamp': ...}`
built by `TTLCache.set`.  `value` is a Python value (`none` = `None`). -/
structure CacheEntry (V : Type) where
  value : Option V
  timestamp : Nat
  deriving Repr, DecidableEq

/-- The state of a `TTLCache` instance: configuration plus the two
internal dicts `self.cache` and `self._access_times`. -/
structure TTLCache (V : Type) where
  ttl_seconds : Nat
  max_size : Nat
  cache : List (String × CacheEntry V)
  access_times : List (String × Nat)
  deriving Repr, DecidableEq

namespace TTLCache

variable {V : Type}

/-- `TTLCache._is_expired`: absent keys count as expired, otherwise the
entry is expired when its age strictly exceeds the TTL. -/
def _is_expired (c : TTLCache V) (now : Nat) (key : String) : Bool :=
  match PyDict.lookup c.cache key with
  | none => true
  | some e => decide (now - e.timestamp > c.ttl_seconds)

/-- `TTLCache._evict_expired`: collect the keys whose entries are older
than the TTL, then pop them from both internal dicts. -/
def _evict_expired (c : TTLCache V) (now : Nat) : TTLCache V :=
  let expired_keys :=
    (c.cache.filter (fun p => decide (now - p.2.timestamp > c.ttl_seconds))).map
      Prod.fst
  { c with
    cache := c.cache.filter
      (fun p => !(decide (now - p.2.timestamp > c.ttl_seconds))),
    access_times := c.access_times.filter
      (fun p => !(expired_keys.contains p.1)) }

/-- `TTLCache._evict_lru`: nothing happens unless the table is strictly
over `max_size`; otherwise sort keys by access time ascending (Python's
stable `sorted`) and pop the oldest `len - max_size + 1` of them. -/
def _evict_lru (c : TTLCache V) : TTLCache V :=
  if c.cache.length ≤ c.max_size then c
  else
    let sorted_keys :=
      @List.insertionSort (String × Nat) (fun a b => a.2 ≤ b.2)
        (fun a b => Nat.decLe a.2 b.2) c.access_times
    let num_to_remove := c.cache.length - c.max_size + 1
    let victims := (sorted_keys.take num_to_remove).map Prod.fst
    { c with
      cache := c.cache.filter (fun p => !(victims.contains p.1)),
      access_times := c.access_times.filter (fun p => !(victims.contains p.1)) }

/-- The body of `TTLCache.get` after the initial expiry sweep: on a
live hit bump the access time and return the stored value; otherwise
return `None`. -/
def getSwept (c1 : TTLCache V) (now : Nat) (key : String) :
    Option V × TTLCache V :=
  match PyDict.lookup c1.cache key with
  | some e =>
      if c1._is_expired now key then (none, c1)
      else (e.value, { c1 with access_times := PyDict.insert c1.access_times key now })
  | none => (none, c1)

/-- `TTLCache.get`: sweep expired entries, then on a live hit bump the
access time and return the stored value; otherwise return `None`. -/
def get (c : TTLCache V) (now : Nat) (key : String) :
    Option V × TTLCache V :=
  getSwept (c._evict_expired now) now key

/-- `TTLCache.set`: sweep expired entries, run LRU eviction, then store
the value with the current timestamp and record the access time. -/
def set (c : TTLCache V) (now : Nat) (key : String) (value : Option V) :
    TTLCache V :=
  let c1 := (c._evict_expired now)._evict_lru
  { c1 with
    cache := PyDict.insert c1.cache key ⟨value, now⟩,
    access_times := PyDict.insert c1.access_times key now }

/-- `TTLCache.delete`. -/
def delete (c : TTLCache V) (key : String) : TTLCache V :=
  { c with
    cache := PyDict.pop c.cache key,
    access_times := PyDict.pop c.access_times key }

/-- `TTLCache.clear`. -/
def clear (c : TTLCache V) : TTLCache V :=
  { c with cache := [], access_times := [] }

/-- A single-threaded caller performing a sequence of `get` operations
`(time, key)` against the cache, threading the state. -/
def runGets (c : TTLCache V) (ops : List (Nat × String)) : TTLCache V :=
  ops.foldl (fun s p => (s.get p.1 p.2).2) c

end TTLCache

/-- A Python parameter value as seen by the key-derivation code:
JSON-serializable scalars and lists, plus `obj`, a stand-in for any
object `json.dumps` cannot serialize (carrying its type name and its
`str()` form is not needed beyond the type name). -/
inductive PyObj : Type where
  | str : String → PyObj
  | int : Int → PyObj
  | boolean : Bool → PyObj
  | list : List PyObj → PyObj
  | obj : String → PyObj
  deriving Repr

/-- Python `str.strip()`: drop leading and trailing whitespace. -/
def pyStrip (s : String) : String :=
  ⟨((s.data.dropWhile Char.isWhitespace).reverse.dropWhile
      Char.isWhitespace).reverse⟩

/-- JSON string quoting as produced by `json.dumps` (escaping of exotic
characters is not modelled; determinism is what the claims use). -/
def jsonQuote (s : String) : String :=
  "\"" ++ s ++ "\""

/-- `hashlib.md5(s.encode()).hexdigest()`, modelled as an abstract
deterministic injective renaming of strings (the identity). -/
def md5hex (s : String) : String := s

/-- Code-point-wise lexicographic `<=` on strings (as their character
lists), exactly Python's string comparison. -/
def strLeB : List Char → List Char → Bool
  | [], _ => true
  | _ :: _, [] => false
  | c :: cs, d :: ds =>
      if c.toNat < d.toNat then true
      else if d.toNat < c.toNat then false
      else strLeB cs ds

/-- Lexicographic-by-key order used to model Python's `sort_keys=True`
and `sorted(d.items())` on dicts (whose keys are distinct, so the
comparison never reaches the second component). -/
def keyLe {β : Type} (a b : String × β) : Prop :=
  strLeB a.1.data b.1.data = true

instance {β : Type} : DecidableRel (@keyLe β) :=
  fun a b => inferInstanceAs (Decidable (strLeB a.1.data b.1.data = true))

mutual

/-- `json.dumps` on a value: raises `TypeError` (modelled as `.error`)
on the first non-serializable object, left to right. -/
def dumps : PyObj → Except String String
  | .str s => .ok (jsonQuote s)
  | .int n => .ok (toString n)
  | .boolean b => .ok (if b then ("true") else ("false"))
  | .list xs =>
      match dumpsList xs with
      | .ok parts => .ok ("[" ++ String.intercalate (", ") parts ++ "]")
      | .error e => .error e
  | .obj tyname =>
      .error ("Object of type " ++ tyname ++ " is not JSON serializable")

def dumpsList : List PyObj → Except String (List String)
  | [] => .ok []
  | x :: xs =>
      match dumps x with
      | .error e => .error e
      | .ok s =>
          match dumpsList xs with
          | .error e => .error e
          | .ok rest => .ok (s :: rest)

end

/-- Serialize the members of a JSON object in the given order. -/
def dumpsPairs : List (String × PyObj) → Except String (List String)
  | [] => .ok []
  | (k, v) :: rest =>
      match dumps v with
      | .error e => .error e
      | .ok s =>
          match dumpsPairs rest with
          | .error e => .error e
          | .ok parts => .ok ((jsonQuote k ++ ": " ++ s) :: parts)

/-- `json.dumps(d, sort_keys=True)` on a string-keyed dict. -/
def dumpsDictSorted (d : List (String × PyObj)) : Except String String :=
  match dumpsPairs (List.insertionSort keyLe d) with
  | .error e => .error e
  | .ok parts => .ok ("\x7b" ++ String.intercalate (", ") parts ++ "\x7d")

mutual

/-- Python `str()` / `repr()` of a value, used by the decorator-based
key derivation, which stringifies arguments before hashing.  Total:
`str` never raises. -/
def pyRepr : PyObj → String
  | .str s => "\x27" ++ s ++ "\x27"
  | .int n => toString n
  | .boolean b => if b then ("True") else ("False")
  | .list xs => "[" ++ String.intercalate (", ") (pyReprList xs) ++ "]"
  | .obj tyname => "<" ++ tyname ++ " object>"

def pyReprList : List PyObj → List String
  | [] => []
  | x :: xs => pyRepr x :: pyReprList xs

end

/-- `str(args)` for the positional-argument tuple. -/
def pyReprTuple (args : List PyObj) : String :=
  "(" ++ String.intercalate (", ") (pyReprList args) ++ ")"

/-- `str(list_of_items)` for a list of `(name, value)` pairs, as
produced by `str(sorted(kwargs.items()))`. -/
def pyReprPairs (pairs : List (String × PyObj)) : String :=
  "[" ++
    String.intercalate (", ")
      (pairs.map (fun p =>
        "(" ++ "\x27" ++ p.1 ++ "\x27" ++ ", " ++ pyRepr p.2 ++ ")")) ++
  "]"

/-- `CacheManager.get_query_cache_key`: md5 of the sorted-keys JSON of
`{'query': query.strip(), 'params': params or [], 'type': 'query'}`.
`json.dumps` has no `default=`, so a non-serializable parameter value
propagates a `TypeError` (modelled as `.error`). -/
def get_query_cache_key (query : String) (params : Option (List PyObj)) :
    Except String String :=
  match dumpsDictSorted
      [(("query"), .str (pyStrip query)),
       (("params"), .list (params.getD [])),
       (("type"), .str ("query"))] with
  | .error e => .error e
  | .ok s => .ok (md5hex s)

/-- `CacheManager.get_profiling_cache_key`: md5 of the sorted-keys JSON
of `{'table': table_name, 'column': column_name, 'type': 'profiling'}`. -/
def get_profiling_cache_key (table_name : String) (column_name : String) :
    Except String String :=
  match dumpsDictSorted
      [(("table"), .str table_name),
       (("column"), .str column_name),
       (("type"), .str ("profiling"))] with
  | .error e => .error e
  | .ok s => .ok (md5hex s)

/-- The key built by the `cached_query` decorator's wrapper:
md5 of the sorted-keys JSON of
`{'func': f.__name__, 'args': str(args), 'kwargs': str(sorted(kwargs.items()))}`.
All three dict values are strings, so this derivation never raises. -/
def wrapperCacheKey (funcName : String) (args : List PyObj)
    (kwargs : List (String × PyObj)) : Except String String :=
  match dumpsDictSorted
      [(("func"), .str funcName),
       (("args"), .str (pyReprTuple args)),
       (("kwargs"), .str (pyReprPairs (List.insertionSort keyLe kwargs)))] with
  | .error e => .error e
  | .ok s => .ok (md5hex s)

/-- The on-disk payload file for one entry: either a well-formed pickle
of a Python value (`none` = pickled `None`), or bytes on which
`pickle.load` raises (corrupt / unreadable file). -/
inductive FileData (V : Type) where
  | good : Option V → FileData V
  | corrupt : FileData V
  deriving Repr, DecidableEq

/-- One record of `FileCache.metadata` (the `cache_metadata.json`
table).  `size_bytes` is the serialized size reported by the
filesystem; it is carried but not further modelled. -/
structure FCMeta where
  original_key : String
  timestamp : Nat
  last_accessed : Nat
  size_bytes : Nat
  tags : List (String × Nat)
  deriving Repr, DecidableEq

/-- The state of a `FileCache` instance: configuration, the cache
directory's payload files (keyed by the md5 storage name), and the
metadata table. -/
structure FileCache (V : Type) where
  ttl_hours : Nat
  files : List (String × FileData V)
  metadata : List (String × FCMeta)
  deriving Repr, DecidableEq

namespace FileCache

variable {V : Type}

/-- `FileCache._get_cache_key`: filesystem-safe name for a logical key. -/
def _get_cache_key (key : String) : String := md5hex key

/-- `FileCache._is_expired`: a storage key with no metadata record
counts as expired; otherwise compare the record's age against the TTL
in hours. -/
def _is_expired (fc : FileCache V) (now : Nat) (cache_key : String) : Bool :=
  match PyDict.lookup fc.metadata cache_key with
  | none => true
  | some m => decide (now - m.timestamp > fc.ttl_hours * 3600)

/-- `FileCache.get`: miss when the payload file is absent or the entry
is expired; a `pickle.load` failure is caught and returned as a miss;
on a genuine hit, update `last_accessed` and return the value. -/
def get (fc : FileCache V) (now : Nat) (key : String) :
    Option V × FileCache V :=
  match PyDict.lookup fc.files (_get_cache_key key) with
  | none => (none, fc)
  | some fd =>
      if fc._is_expired now (_get_cache_key key) then (none, fc)
      else
        match fd with
        | .corrupt => (none, fc)
        | .good v =>
            (v, { fc with
                  metadata := fc.metadata.map (fun p =>
                    if p.1 = _get_cache_key key then (p.1, { p.2 with last_accessed := now })
                    else p) })

/-- `FileCache.set`: write the pickled payload, then write the metadata
record (creation time and last-accessed time both `now`). -/
def set (fc : FileCache V) (now : Nat) (key : String) (value : Option V)
    (tags : List (String × Nat)) : FileCache V :=
  let cache_key := _get_cache_key key
  { fc with
    files := PyDict.insert fc.files cache_key (FileData.good value),
    metadata := PyDict.insert fc.metadata cache_key
      ⟨key, now, now, 0, tags⟩ }

/-- `FileCache.delete`: remove the payload file and the metadata record. -/
def delete (fc : FileCache V) (key : String) : FileCache V :=
  let cache_key := _get_cache_key key
  { fc with
    files := PyDict.pop fc.files cache_key,
    metadata := PyDict.pop fc.metadata cache_key }

/-- `FileCache.clear_expired`: delete the payload file and metadata
record of every expired entry; unexpired entries are untouched. -/
def clear_expired (fc : FileCache V) (now : Nat) : FileCache V :=
  let expired_keys :=
    (fc.metadata.filter (fun p => fc._is_expired now p.1)).map Prod.fst
  { fc with
    files := fc.files.filter (fun p => !(expired_keys.contains p.1)),
    metadata := fc.metadata.filter (fun p => !(expired_keys.contains p.1)) }

end FileCache

/-- A query result as routed by the Manager: either a Python `list` of
rows or some other object (e.g. a DataFrame).  The Manager caches
results as Python values, so tiers are instantiated at `PyVal V` and a
stored value is an `Option (PyVal V)` (with `none` = `None`). -/
inductive PyVal (V : Type) where
  | list : List V → PyVal V
  | other : V → PyVal V
  deriving Repr, DecidableEq

/-- `CacheManager` state: one memory tier and one disk tier. -/
structure CacheManager (V : Type) where
  memory_cache : TTLCache (PyVal V)
  file_cache : FileCache (PyVal V)
  deriving Repr, DecidableEq

namespace CacheManager

variable {V : Type}

/-- `CacheManager.__init__`: memory tier with one-hour TTL and 500
slots, disk tier with 24-hour TTL (fresh/empty storage). -/
def init (V : Type) : CacheManager V :=
  { memory_cache := ⟨3600, 500, [], []⟩,
    file_cache := ⟨24, [], []⟩ }

/-- The guard `isinstance(result, list) and len(result) < 100` of
`CacheManager.cache_query_result`. -/
def isSmallList : Option (PyVal V) → Bool
  | some (.list xs) => decide (xs.length < 100)
  | _ => false

/-- `CacheManager.cache_query_result`: derive the key, then store small
lists in the memory tier and everything else in the disk tier (with a
`query_length` tag). -/
def cache_query_result (m : CacheManager V) (now : Nat) (query : String)
    (result : Option (PyVal V)) (params : Option (List PyObj)) :
    Except String (CacheManager V) :=
  match get_query_cache_key query params with
  | .error e => .error e
  | .ok cache_key =>
      if isSmallList result then
        .ok { m with memory_cache := m.memory_cache.set now cache_key result }
      else
        .ok { m with
              file_cache := m.file_cache.set now cache_key result
                [(("query_length"), query.length)] }

/-- The tier-probing part of `CacheManager.get_cached_query_result`:
try the memory cache first; when it returns `None`, try the file
cache. -/
def lookupTiers (m : CacheManager V) (now : Nat) (cache_key : String) :
    Except String (Option (PyVal V) × CacheManager V) :=
  match (m.memory_cache.get now cache_key).1 with
  | some v =>
      .ok (some v,
        { m with memory_cache := (m.memory_cache.get now cache_key).2 })
  | none =>
      .ok ((m.file_cache.get now cache_key).1,
        { m with
          memory_cache := (m.memory_cache.get now cache_key).2,
          file_cache := (m.file_cache.get now cache_key).2 })

/-- `CacheManager.get_cached_query_result`: derive the key, probe the
memory tier, and fall through to the disk tier when the memory tier
returned `None`. -/
def get_cached_query_result (m : CacheManager V) (now : Nat)
    (query : String) (params : Option (List PyObj)) :
    Except String (Option (PyVal V) × CacheManager V) :=
  match get_query_cache_key query params with
  | .error e => .error e
  | .ok cache_key => lookupTiers m now cache_key

/-- `CacheManager.clear_all_caches`: `memory_cache.clear()` followed by
`file_cache.clear_expired()`. -/
def clear_all_caches (m : CacheManager V) (now : Nat) : CacheManager V :=
  { m with
    memory_cache := m.memory_cache.clear,
    file_cache := m.file_cache.clear_expired now }

end CacheManager

/-- The concrete derived query key, for stating concrete instances:
the `.ok` payload of `get_query_cache_key` (and `""` on the error
branch, never taken for serializable parameters). -/
def keyOf (query : String) (params : Option (List PyObj)) : String :=
  match get_query_cache_key query params with
  | .ok s => s
  | .error _ => ""

/-- A concrete disk-tier state with one corrupt payload file and one
intact, unexpired entry, for instantiating fault-isolation statements. -/
def fcWitness : FileCache Nat :=
  ⟨24,
   [(("bad"), FileData.corrupt), (("ok"), FileData.good (some 7))],
   [(("bad"), ⟨("bad"), 0, 0, 0, []⟩), (("ok"), ⟨("ok"), 0, 0, 0, []⟩)]⟩

/-- A concrete Manager state whose disk tier holds one long-expired
entry and one fresh entry, for instantiating clear-all statements. -/
def mgrWitness : CacheManager Nat :=
  { memory_cache :=
      ⟨3600, 500, [(("mk"), ⟨some (PyVal.other 1), 99000⟩)], [(("mk"), 99000)]⟩,
    file_cache :=
      ⟨24,
       [(("old"), FileData.good (some (PyVal.other 5))),
        (("new"), FileData.good (some (PyVal.other 9)))],
       [(("old"), ⟨("old"), 0, 0, 0, []⟩),
        (("new"), ⟨("new"), 99000, 99000, 0, []⟩)]⟩ }

/-! ## Lemmas about the Python-dict model -/

namespace PyDict

variable {β : Type}

theorem lookup_insert (d : List (String × β)) (k : String) (v : β) :
    lookup (insert d k v) k = some v := by
  induction d with
  | nil => simp [insert, lookup]
  | cons p rest ih =>
      obtain ⟨k', v'⟩ := p
      by_cases h : k' = k
      · simp [insert, lookup, h]
      · simp [insert, lookup, h, ih]

theorem lookup_eq_none (d : List (String × β)) (k : String)
    (h : k ∉ d.map Prod.fst) : lookup d k = none := by
  induction d with
  | nil => rfl
  | cons p rest ih =>
      obtain ⟨k', v'⟩ := p
      simp only [List.map_cons, List.mem_cons] at h
      push_neg at h
      have h1 : k' ≠ k := fun hh => h.1 hh.symm
      simp [lookup, h1, ih h.2]

theorem lookup_filter_of_true (f : String × β → Bool) (d : List (String × β))
    (k : String) (v : β) (hl : lookup d k = some v) (hf : f (k, v) = true) :
    lookup (d.filter f) k = some v := by
  induction d with
  | nil => simp [lookup] at hl
  | cons p rest ih =>
      obtain ⟨k', v'⟩ := p
      by_cases h : k' = k
      · subst h
        simp only [lookup, if_pos rfl] at hl
        obtain rfl : v' = v := by injection hl
        rw [List.filter_cons, if_pos (by simpa using hf)]
        simp [lookup]
      · have hl' : lookup rest k = some v := by simpa [lookup, h] using hl
        by_cases hf' : f (k', v') = true
        · rw [List.filter_cons, if_pos (by simpa using hf')]
          simpa [lookup, h] using ih hl'
        · rw [List.filter_cons,
            if_neg (by simpa using hf')]
          exact ih hl'

theorem lookup_filter_none (f : String × β → Bool) (d : List (String × β))
    (k : String) (hl : lookup d k = none) : lookup (d.filter f) k = none := by
  induction d with
  | nil => rfl
  | cons p rest ih =>
      obtain ⟨k', v'⟩ := p
      by_cases h : k' = k
      · simp [lookup, h] at hl
      · have hl' : lookup rest k = none := by simpa [lookup, h] using hl
        by_cases hf' : f (k', v') = true
        · rw [List.filter_cons, if_pos (by simpa using hf')]
          simpa [lookup, h] using ih hl'
        · rw [List.filter_cons, if_neg (by simpa using hf')]
          exact ih hl'

theorem lookup_filter_of_false (f : String × β → Bool) (d : List (String × β))
    (k : String) (v : β) (hnd : (d.map Prod.fst).Nodup)
    (hl : lookup d k = some v) (hf : f (k, v) = false) :
    lookup (d.filter f) k = none := by
  induction d with
  | nil => simp [lookup] at hl
  | cons p rest ih =>
      obtain ⟨k', v'⟩ := p
      simp only [List.map_cons, List.nodup_cons] at hnd
      by_cases h : k' = k
      · subst h
        simp only [lookup, if_pos rfl] at hl
        obtain rfl : v' = v := by injection hl
        rw [List.filter_cons, if_neg (by simp [hf])]
        exact lookup_filter_none f rest k' (lookup_eq_none rest k' hnd.1)
      · have hl' : lookup rest k = some v := by simpa [lookup, h] using hl
        by_cases hf' : f (k', v') = true
        · rw [List.filter_cons, if_pos (by simpa using hf')]
          simpa [lookup, h] using ih hnd.2 hl'
        · rw [List.filter_cons, if_neg (by simpa using hf')]
          exact ih hnd.2 hl'

theorem lookup_filter_key (g : String → Bool) (d : List (String × β))
    (k : String) (hg : g k = false) :
    lookup (d.filter (fun p => g p.1)) k = none := by
  induction d with
  | nil => rfl
  | cons p rest ih =>
      obtain ⟨k', v'⟩ := p
      by_cases h : k' = k
      · subst h
        rw [List.filter_cons, if_neg (by simp [hg])]
        exact ih
      · by_cases hf' : g k' = true
        · rw [List.filter_cons, if_pos (by simpa using hf')]
          simpa [lookup, h] using ih
        · rw [List.filter_cons, if_neg (by simpa using hf')]
          exact ih

theorem mem_keys_insert (d : List (String × β)) (k x : String) (v : β)
    (hx : x ∈ (insert d k v).map Prod.fst) :
    x = k ∨ x ∈ d.map Prod.fst := by
  induction d with
  | nil => simpa [insert] using hx
  | cons p rest ih =>
      obtain ⟨k', v'⟩ := p
      by_cases h : k' = k
      · subst h
        simp only [insert, if_pos rfl, List.map_cons, List.mem_cons] at hx
        simpa using hx
      · simp only [insert, if_neg h, List.map_cons, List.mem_cons] at hx
        rcases hx with hx | hx
        · simp [hx]
        · rcases ih hx with h1 | h1
          · exact Or.inl h1
          · exact Or.inr (by simp [h1])

theorem nodup_keys_insert (d : List (String × β)) (k : String) (v : β)
    (hnd : (d.map Prod.fst).Nodup) :
    ((insert d k v).map Prod.fst).Nodup := by
  induction d with
  | nil => simp [insert]
  | cons p rest ih =>
      obtain ⟨k', v'⟩ := p
      simp only [List.map_cons, List.nodup_cons] at hnd
      by_cases h : k' = k
      · subst h
        have he : insert ((k', v') :: rest) k' v = (k', v) :: rest := by
          simp [insert]
        rw [he, List.map_cons, List.nodup_cons]
        exact ⟨hnd.1, hnd.2⟩
      · simp only [insert, if_neg h, List.map_cons, List.nodup_cons]
        refine ⟨fun hx => ?_, ih hnd.2⟩
        rcases mem_keys_insert rest k k' v hx with h1 | h1
        · exact h h1
        · exact hnd.1 h1

theorem nodup_keys_filter (f : String × β → Bool) (d : List (String × β))
    (hnd : (d.map Prod.fst).Nodup) :
    ((d.filter f).map Prod.fst).Nodup :=
  List.Nodup.sublist (List.Sublist.map Prod.fst (List.filter_sublist d)) hnd

end PyDict

/-! ## Lemmas about the memory tier -/

namespace TTLCache

variable {V : Type}

theorem _evict_expired_ttl (c : TTLCache V) (now : Nat) :
    (c._evict_expired now).ttl_seconds = c.ttl_seconds := rfl

theorem _evict_expired_cache (c : TTLCache V) (now : Nat) :
    (c._evict_expired now).cache =
      c.cache.filter (fun p => !(decide (now - p.2.timestamp > c.ttl_seconds))) :=
  rfl

theorem _evict_lru_ttl (c : TTLCache V) :
    c._evict_lru.ttl_seconds = c.ttl_seconds := by
  unfold _evict_lru
  split <;> rfl

theorem _evict_lru_nodup (c : TTLCache V)
    (hnd : (c.cache.map Prod.fst).Nodup) :
    (c._evict_lru.cache.map Prod.fst).Nodup := by
  unfold _evict_lru
  split
  · exact hnd
  · exact PyDict.nodup_keys_filter _ _ hnd

theorem set_cache (c : TTLCache V) (now : Nat) (k : String) (v : Option V) :
    (c.set now k v).cache =
      PyDict.insert ((c._evict_expired now)._evict_lru).cache k ⟨v, now⟩ := rfl

theorem set_ttl (c : TTLCache V) (now : Nat) (k : String) (v : Option V) :
    (c.set now k v).ttl_seconds = c.ttl_seconds := by
  show ((c._evict_expired now)._evict_lru).ttl_seconds = c.ttl_seconds
  rw [_evict_lru_ttl, _evict_expired_ttl]

theorem set_lookup (c : TTLCache V) (now : Nat) (k : String) (v : Option V) :
    PyDict.lookup (c.set now k v).cache k = some ⟨v, now⟩ := by
  rw [set_cache]
  exact PyDict.lookup_insert _ _ _

theorem set_nodup (c : TTLCache V) (now : Nat) (k : String) (v : Option V)
    (hnd : (c.cache.map Prod.fst).Nodup) :
    ((c.set now k v).cache.map Prod.fst).Nodup := by
  rw [set_cache]
  exact PyDict.nodup_keys_insert _ _ _
    (_evict_lru_nodup _ (PyDict.nodup_keys_filter _ _ hnd))

theorem getSwept_lookup_none (c1 : TTLCache V) (now : Nat) (k : String)
    (h : PyDict.lookup c1.cache k = none) :
    getSwept c1 now k = (none, c1) := by
  unfold getSwept
  rw [h]

theorem getSwept_hit (c1 : TTLCache V) (now : Nat) (k : String)
    (e : CacheEntry V) (h : PyDict.lookup c1.cache k = some e)
    (hfresh : now - e.timestamp ≤ c1.ttl_seconds) :
    getSwept c1 now k =
      (e.value,
       { c1 with access_times := PyDict.insert c1.access_times k now }) := by
  have hne : c1._is_expired now k = false := by
    unfold _is_expired
    rw [h]
    simpa using not_lt.mpr hfresh
  unfold getSwept
  rw [h, hne]
  simp

theorem get_eq (c : TTLCache V) (now : Nat) (k : String) :
    c.get now k = getSwept (c._evict_expired now) now k := rfl

theorem get_of_lookup_none (c : TTLCache V) (now : Nat) (k : String)
    (hl : PyDict.lookup c.cache k = none) :
    c.get now k = (none, c._evict_expired now) := by
  rw [get_eq]
  exact getSwept_lookup_none _ _ _
    (by rw [_evict_expired_cache]; exact PyDict.lookup_filter_none _ _ _ hl)

theorem get_hit (c : TTLCache V) (now : Nat) (k : String) (e : CacheEntry V)
    (hl : PyDict.lookup c.cache k = some e)
    (hfresh : now - e.timestamp ≤ c.ttl_seconds) :
    c.get now k =
      (e.value,
       { c._evict_expired now with
         access_times :=
           PyDict.insert (c._evict_expired now).access_times k now }) := by
  rw [get_eq]
  have hkeep : PyDict.lookup (c._evict_expired now).cache k = some e := by
    rw [_evict_expired_cache]
    refine PyDict.lookup_filter_of_true _ _ _ _ hl ?_
    simpa using not_lt.mpr hfresh
  exact getSwept_hit _ _ _ _ hkeep (by rw [_evict_expired_ttl]; exact hfresh)

theorem get_stale (c : TTLCache V) (now : Nat) (k : String) (e : CacheEntry V)
    (hnd : (c.cache.map Prod.fst).Nodup)
    (hl : PyDict.lookup c.cache k = some e)
    (hstale : c.ttl_seconds < now - e.timestamp) :
    (c.get now k).1 = none := by
  rw [get_eq]
  have hgone : PyDict.lookup (c._evict_expired now).cache k = none := by
    rw [_evict_expired_cache]
    refine PyDict.lookup_filter_of_false _ _ _ _ hnd hl ?_
    simpa using hstale
  rw [getSwept_lookup_none _ _ _ hgone]

theorem get_snd_cache (c : TTLCache V) (now : Nat) (k : String) :
    ((c.get now k).2).cache = (c._evict_expired now).cache := by
  rw [get_eq]
  unfold getSwept
  cases h : PyDict.lookup (c._evict_expired now).cache k
  · rfl
  · dsimp only
    by_cases he : (c._evict_expired now)._is_expired now k = true
    · rw [if_pos he]
    · rw [if_neg he]

theorem get_ttl (c : TTLCache V) (now : Nat) (k : String) :
    ((c.get now k).2).ttl_seconds = c.ttl_seconds := by
  rw [get_eq]
  unfold getSwept
  cases h : PyDict.lookup (c._evict_expired now).cache k
  · rfl
  · dsimp only
    by_cases he : (c._evict_expired now)._is_expired now k = true
    · rw [if_pos he]
      rfl
    · rw [if_neg he]
      rfl

theorem get_nodup (c : TTLCache V) (now : Nat) (k : String)
    (hnd : (c.cache.map Prod.fst).Nodup) :
    (((c.get now k).2).cache.map Prod.fst).Nodup := by
  rw [get_snd_cache, _evict_expired_cache]
  exact PyDict.nodup_keys_filter _ _ hnd

theorem get_preserves_entry (c : TTLCache V) (t : Nat) (k' k : String)
    (e : CacheEntry V) (hl : PyDict.lookup c.cache k = some e)
    (hfresh : t - e.timestamp ≤ c.ttl_seconds) :
    PyDict.lookup ((c.get t k').2).cache k = some e := by
  rw [get_snd_cache, _evict_expired_cache]
  refine PyDict.lookup_filter_of_true _ _ _ _ hl ?_
  simpa using not_lt.mpr hfresh

theorem get_hit_fst (c : TTLCache V) (now : Nat) (k : String)
    (e : CacheEntry V) (hl : PyDict.lookup c.cache k = some e)
    (hfresh : now - e.timestamp ≤ c.ttl_seconds) :
    (c.get now k).1 = e.value := by
  rw [get_hit c now k e hl hfresh]

theorem clear_get_none (c : TTLCache V) (t : Nat) (k : String) :
    ((TTLCache.clear c).get t k).1 = none := by
  rw [get_of_lookup_none (TTLCache.clear c) t k (by rfl)]

/-- Every invariant that `runGets` preserves for a fresh entry: the
entry itself (value and creation timestamp untouched), the TTL
configuration, and key uniqueness. -/
theorem runGets_preserves (T : Nat) (k : String) (e : CacheEntry V) :
    ∀ (ops : List (Nat × String)) (s : TTLCache V),
      (∀ p ∈ ops, p.1 - e.timestamp ≤ T) →
      s.ttl_seconds = T →
      PyDict.lookup s.cache k = some e →
      (s.cache.map Prod.fst).Nodup →
      (PyDict.lookup (s.runGets ops).cache k = some e ∧
       (s.runGets ops).ttl_seconds = T ∧
       ((s.runGets ops).cache.map Prod.fst).Nodup) := by
  intro ops
  induction ops with
  | nil =>
      intro s _ hT hl hnd
      exact ⟨hl, hT, hnd⟩
  | cons p rest ih =>
      intro s hg hT hl hnd
      have hstep : s.runGets (p :: rest) = ((s.get p.1 p.2).2).runGets rest := rfl
      rw [hstep]
      apply ih
      · intro q hq
        exact hg q (List.mem_cons_of_mem p hq)
      · rw [get_ttl]
        exact hT
      · exact get_preserves_entry s p.1 p.2 k e hl
          (by rw [hT]; exact hg p (List.mem_cons_self p rest))
      · exact get_nodup _ _ _ hnd

end TTLCache

/-! ## Lemmas about the disk tier -/

namespace FileCache

variable {V : Type}

theorem fcGet_hit (fc : FileCache V) (now : Nat) (k : String) (v : Option V)
    (m : FCMeta)
    (hfile : PyDict.lookup fc.files (_get_cache_key k) = some (FileData.good v))
    (hmeta : PyDict.lookup fc.metadata (_get_cache_key k) = some m)
    (hfresh : now - m.timestamp ≤ fc.ttl_hours * 3600) :
    (fc.get now k).1 = v := by
  have hexp : fc._is_expired now (_get_cache_key k) = false := by
    unfold _is_expired
    rw [hmeta]
    simpa using not_lt.mpr hfresh
  unfold get
  rw [hfile]
  dsimp only
  rw [hexp]
  simp

theorem get_miss_state (fc : FileCache V) (now : Nat) (k : String)
    (h : PyDict.lookup fc.files (_get_cache_key k) = none ∨
         PyDict.lookup fc.files (_get_cache_key k) = some FileData.corrupt ∨
         PyDict.lookup fc.metadata (_get_cache_key k) = none) :
    fc.get now k = (none, fc) := by
  rcases h with h | h | h
  · unfold get
    rw [h]
  · unfold get
    rw [h]
    dsimp only
    by_cases he : fc._is_expired now (_get_cache_key k) = true
    · rw [if_pos he]
    · rw [if_neg he]
  · have he : fc._is_expired now (_get_cache_key k) = true := by
      unfold _is_expired
      rw [h]
    unfold get
    cases hf : PyDict.lookup fc.files (_get_cache_key k)
    · rfl
    · dsimp only
      rw [if_pos he]

theorem set_get_value (fc : FileCache V) (t0 t1 : Nat) (k : String)
    (v : Option V) (tags : List (String × Nat))
    (hfresh : t1 - t0 ≤ fc.ttl_hours * 3600) :
    ((fc.set t0 k v tags).get t1 k).1 = v := by
  refine fcGet_hit _ t1 k v ⟨k, t0, t0, 0, tags⟩ ?_ ?_ ?_
  · show PyDict.lookup
      (PyDict.insert fc.files (_get_cache_key k) (FileData.good v))
      (_get_cache_key k) = some (FileData.good v)
    exact PyDict.lookup_insert _ _ _
  · show PyDict.lookup
      (PyDict.insert fc.metadata (_get_cache_key k) ⟨k, t0, t0, 0, tags⟩)
      (_get_cache_key k) = some ⟨k, t0, t0, 0, tags⟩
    exact PyDict.lookup_insert _ _ _
  · exact hfresh

theorem clear_expired_removes (fc : FileCache V) (now : Nat) (ck : String)
    (hck : ck ∈ fc.metadata.map Prod.fst)
    (hexp : fc._is_expired now ck = true) :
    PyDict.lookup (fc.clear_expired now).metadata ck = none ∧
    PyDict.lookup (fc.clear_expired now).files ck = none := by
  have hmem : ck ∈
      ((fc.metadata.filter (fun p => fc._is_expired now p.1)).map Prod.fst) := by
    rcases List.mem_map.mp hck with ⟨p, hp, hpk⟩
    exact List.mem_map.mpr
      ⟨p, List.mem_filter.mpr ⟨hp, by rw [hpk]; exact hexp⟩, hpk⟩
  have hg : (!(((fc.metadata.filter (fun p => fc._is_expired now p.1)).map
      Prod.fst).contains ck)) = false := by
    simpa using hmem
  constructor
  · exact PyDict.lookup_filter_key
      (fun s => !(((fc.metadata.filter (fun p => fc._is_expired now p.1)).map
        Prod.fst).contains s)) fc.metadata ck hg
  · exact PyDict.lookup_filter_key
      (fun s => !(((fc.metadata.filter (fun p => fc._is_expired now p.1)).map
        Prod.fst).contains s)) fc.files ck hg

theorem clear_expired_keeps (fc : FileCache V) (now : Nat) (k : String)
    (v : Option V) (m : FCMeta)
    (hfile : PyDict.lookup fc.files (_get_cache_key k) = some (FileData.good v))
    (hmeta : PyDict.lookup fc.metadata (_get_cache_key k) = some m)
    (hfresh : now - m.timestamp ≤ fc.ttl_hours * 3600) :
    (((fc.clear_expired now)).get now k).1 = v := by
  have hnotexp : fc._is_expired now (_get_cache_key k) = false := by
    unfold _is_expired
    rw [hmeta]
    simpa using not_lt.mpr hfresh
  have hnotmem : (_get_cache_key k) ∉
      ((fc.metadata.filter (fun p => fc._is_expired now p.1)).map Prod.fst) := by
    intro hm
    rcases List.mem_map.mp hm with ⟨p, hp, hpk⟩
    have hpe := (List.mem_filter.mp hp).2
    rw [hpk, hnotexp] at hpe
    cases hpe
  have hcontains : ((!(((fc.metadata.filter
      (fun p => fc._is_expired now p.1)).map Prod.fst).contains
        (_get_cache_key k))) = true) := by
    simpa using hnotmem
  have hfile' : PyDict.lookup (fc.clear_expired now).files
      (_get_cache_key k) = some (FileData.good v) :=
    PyDict.lookup_filter_of_true _ _ _ _ hfile hcontains
  have hmeta' : PyDict.lookup (fc.clear_expired now).metadata
      (_get_cache_key k) = some m :=
    PyDict.lookup_filter_of_true _ _ _ _ hmeta hcontains
  exact fcGet_hit _ now k v m hfile' hmeta' hfresh

end FileCache

/-! ## Sorting lemmas for key derivation -/

theorem strLeB_total : ∀ a b : List Char, strLeB a b = true ∨ strLeB b a = true := by
  intro a
  induction a with
  | nil => intro b; left; rfl
  | cons c cs ih =>
      intro b
      cases b with
      | nil => right; rfl
      | cons d ds =>
          by_cases h1 : c.toNat < d.toNat
          · left
            simp [strLeB, h1]
          · by_cases h2 : d.toNat < c.toNat
            · right
              simp [strLeB, h2]
            · rcases ih ds with h | h
              · left
                simp [strLeB, h1, h2, h]
              · right
                simp [strLeB, h1, h2, h]

theorem strLeB_trans : ∀ a b c : List Char, strLeB a b = true →
    strLeB b c = true → strLeB a c = true := by
  intro a
  induction a with
  | nil => intro b c _ _; rfl
  | cons x xs ih =>
      intro b c hab hbc
      cases b with
      | nil => simp [strLeB] at hab
      | cons y ys =>
          cases c with
          | nil => simp [strLeB] at hbc
          | cons z zs =>
              have hab' : x.toNat < y.toNat ∨
                  (x.toNat = y.toNat ∧ strLeB xs ys = true) := by
                by_cases h1 : x.toNat < y.toNat
                · exact Or.inl h1
                · by_cases h2 : y.toNat < x.toNat
                  · simp [strLeB, h1, h2] at hab
                  · exact Or.inr ⟨by omega, by simpa [strLeB, h1, h2] using hab⟩
              have hbc' : y.toNat < z.toNat ∨
                  (y.toNat = z.toNat ∧ strLeB ys zs = true) := by
                by_cases h1 : y.toNat < z.toNat
                · exact Or.inl h1
                · by_cases h2 : z.toNat < y.toNat
                  · simp [strLeB, h1, h2] at hbc
                  · exact Or.inr ⟨by omega, by simpa [strLeB, h1, h2] using hbc⟩
              rcases hab' with h | ⟨he, hr⟩ <;> rcases hbc' with h2 | ⟨he2, hr2⟩
              · simp [strLeB, show x.toNat < z.toNat by omega]
              · simp [strLeB, show x.toNat < z.toNat by omega]
              · simp [strLeB, show x.toNat < z.toNat by omega]
              · have hrec := ih ys zs hr hr2
                simp [strLeB, show ¬ x.toNat < z.toNat by omega,
                  show ¬ z.toNat < x.toNat by omega, hrec]

theorem strLeB_antisymm : ∀ a b : List Char, strLeB a b = true →
    strLeB b a = true → a = b := by
  intro a
  induction a with
  | nil =>
      intro b _ hba
      cases b with
      | nil => rfl
      | cons d ds => simp [strLeB] at hba
  | cons x xs ih =>
      intro b hab hba
      cases b with
      | nil => simp [strLeB] at hab
      | cons y ys =>
          by_cases h1 : x.toNat < y.toNat
          · simp [strLeB, h1, show ¬ y.toNat < x.toNat by omega] at hba
          · by_cases h2 : y.toNat < x.toNat
            · simp [strLeB, h1, h2] at hab
            · have hxy : x.toNat = y.toNat := by omega
              have hx : x = y :=
                Char.eq_of_val_eq (UInt32.eq_of_val_eq (Fin.eq_of_val_eq hxy))
              have hxs : xs = ys := by
                apply ih
                · simpa [strLeB, h1, h2] using hab
                · simpa [strLeB, h1, h2] using hba
              rw [hx, hxs]

theorem str_eq_of_data_eq (s t : String) (h : s.data = t.data) : s = t := by
  cases s
  cases t
  exact congrArg String.mk h

theorem keyLe_key_eq {β : Type} (a b : String × β) (h1 : keyLe a b)
    (h2 : keyLe b a) : a.1 = b.1 :=
  str_eq_of_data_eq _ _ (strLeB_antisymm _ _ h1 h2)

/-- Two lists of keyword bindings that are permutations of each other,
both sorted by key, with no duplicate keys, are equal. -/
theorem sorted_eq_of_perm {β : Type} (l1 : List (String × β)) :
    ∀ l2 : List (String × β), l1.Perm l2 → l1.Sorted keyLe →
      l2.Sorted keyLe → (l1.map Prod.fst).Nodup → l1 = l2 := by
  induction l1 with
  | nil =>
      intro l2 h _ _ _
      exact (List.Perm.eq_nil h.symm).symm
  | cons a t1 ih =>
      intro l2 h s1 s2 nd
      cases l2 with
      | nil => exact absurd (List.Perm.eq_nil h) (by simp)
      | cons b t2 =>
          have hab : a = b := by
            by_contra hne
            have ha2 : a ∈ t2 := by
              have hmem := h.subset (List.mem_cons_self a t1)
              rcases List.mem_cons.mp hmem with h1 | h1
              · exact absurd h1 hne
              · exact h1
            have hb1 : b ∈ t1 := by
              have hmem := h.symm.subset (List.mem_cons_self b t2)
              rcases List.mem_cons.mp hmem with h1 | h1
              · exact absurd h1.symm hne
              · exact h1
            have hba : keyLe b a := (List.sorted_cons.mp s2).1 a ha2
            have hab' : keyLe a b := (List.sorted_cons.mp s1).1 b hb1
            have hmem1 : a.1 ∈ t1.map Prod.fst := by
              rw [keyLe_key_eq a b hab' hba]
              exact List.mem_map_of_mem Prod.fst hb1
            have hnd1 : a.1 ∉ t1.map Prod.fst :=
              (List.nodup_cons.mp (by simpa using nd)).1
            exact hnd1 hmem1
          subst hab
          have ht : t1.Perm t2 := h.cons_inv
          rw [ih t2 ht (List.sorted_cons.mp s1).2 (List.sorted_cons.mp s2).2
            (List.nodup_cons.mp (by simpa using nd)).2]

/-- Sorting by key maps key-nodup permutations to the same list. -/
theorem insertionSort_eq_of_perm {β : Type} (l1 l2 : List (String × β))
    (h : l1.Perm l2) (hnd : (l1.map Prod.fst).Nodup) :
    List.insertionSort keyLe l1 = List.insertionSort keyLe l2 := by
  haveI htot : IsTotal (String × β) keyLe := ⟨fun a b => strLeB_total _ _⟩
  haveI htr : IsTrans (String × β) keyLe :=
    ⟨fun _ _ _ hab hbc => strLeB_trans _ _ _ hab hbc⟩
  apply sorted_eq_of_perm
  · exact (List.perm_insertionSort keyLe l1).trans
      (h.trans (List.perm_insertionSort keyLe l2).symm)
  · exact List.sorted_insertionSort keyLe l1
  · exact List.sorted_insertionSort keyLe l2
  · exact ((List.perm_insertionSort keyLe l1).map Prod.fst).nodup_iff.mpr hnd

/-! ## Claim theorems -/

/-- Claim C1 (code-bug evaluation): with max_size = 2, the sequence
set(a), set(b), get(a), set(c) does NOT evict b, contrary to the
claim's "leaving exactly a and c": `_evict_lru` returns early whenever
the table length is at most `max_size`, so the fourth `set` leaves all
three keys in the table — the cache holds 3 entries, exceeding its
configured max_size of 2.  Eviction only triggers on the set after the
table is already strictly over capacity. -/
theorem lru_eviction_is_deferred :
    ((((((⟨3600, 2, [], []⟩ : TTLCache Nat).set 0 ("a") (some 1)).set 1 ("b")
          (some 2)).get 2 ("a")).2.set 3 ("c") (some 3)).cache.map Prod.fst)
      = [("a"), ("b"), ("c")] := by
  rfl

/-- Claim C2: round trip — a memory-tier `set(k, v)` followed by
`get(k)` before TTL expiry returns exactly the just-set value. -/
theorem round_trip {V : Type} (c : TTLCache V) (k : String) (pv : Option V)
    (now now' : Nat) (h : now' - now ≤ c.ttl_seconds) :
    ((c.set now k pv).get now' k).1 = pv :=
  TTLCache.get_hit_fst (c.set now k pv) now' k ⟨pv, now⟩
    (TTLCache.set_lookup c now k pv)
    (by rw [TTLCache.set_ttl]; exact h)

theorem round_trip_witness :
    (((⟨3600, 500, [], []⟩ : TTLCache Nat).set 0 ("k") (some 5)).get 0
      ("k")).1 = some 5 :=
  round_trip ⟨3600, 500, [], []⟩ ("k") (some 5) 0 0 (by decide)

/-- Claim C3: key stability — the key derivation used for cached
operations is order-independent in the keyword arguments: permuting
the kwargs mapping leaves the derived cache key unchanged. -/
theorem key_order_independence (funcName : String) (args : List PyObj)
    (kw1 kw2 : List (String × PyObj)) (hperm : kw1.Perm kw2)
    (hnd : (kw1.map Prod.fst).Nodup) :
    wrapperCacheKey funcName args kw1 = wrapperCacheKey funcName args kw2 := by
  unfold wrapperCacheKey
  rw [insertionSort_eq_of_perm kw1 kw2 hperm hnd]

theorem key_order_independence_witness :
    wrapperCacheKey ("query") []
        [(("q"), PyObj.str ("SELECT 1")),
         (("p"), PyObj.list [PyObj.int 1, PyObj.int 2])]
      = wrapperCacheKey ("query") []
        [(("p"), PyObj.list [PyObj.int 1, PyObj.int 2]),
         (("q"), PyObj.str ("SELECT 1"))] :=
  key_order_independence ("query") [] _ _ (List.Perm.swap _ _ _) (by decide)

/-- Claim C8 (code-bug evaluation): `get_query_cache_key` calls
`json.dumps` with no `default=str`, so a parameter value that cannot
be serialized (e.g. a Python set) propagates a TypeError instead of
being converted to its string form — key derivation can raise. -/
theorem query_key_raises_on_unserializable :
    get_query_cache_key ("SELECT 1") (some [PyObj.obj ("set")]) =
      .error ("Object of type set is not JSON serializable") := by
  rfl

/-- Claim C4: TTL is absolute, not sliding — after a `set` at time t0,
any number of intervening unexpiring `get`s (hits included) leaves the
entry's creation timestamp at t0, and a final `get` at time tF returns
the stored value exactly when tF - t0 is at most the TTL. -/
theorem ttl_absolute {V : Type} (c : TTLCache V)
    (hnd : (c.cache.map Prod.fst).Nodup) (k : String) (pv : Option V)
    (t0 : Nat) (gets : List (Nat × String))
    (hg : ∀ p ∈ gets, p.1 - t0 ≤ c.ttl_seconds) (tF : Nat) :
    PyDict.lookup ((c.set t0 k pv).runGets gets).cache k = some ⟨pv, t0⟩ ∧
    (((c.set t0 k pv).runGets gets).get tF k).1 =
      (if tF - t0 ≤ c.ttl_seconds then pv else none) := by
  have hinv := TTLCache.runGets_preserves c.ttl_seconds k ⟨pv, t0⟩ gets
    (c.set t0 k pv) hg (TTLCache.set_ttl c t0 k pv)
    (TTLCache.set_lookup c t0 k pv) (TTLCache.set_nodup c t0 k pv hnd)
  refine ⟨hinv.1, ?_⟩
  by_cases hF : tF - t0 ≤ c.ttl_seconds
  · rw [if_pos hF]
    exact TTLCache.get_hit_fst _ tF k ⟨pv, t0⟩ hinv.1
      (by rw [hinv.2.1]; exact hF)
  · rw [if_neg hF]
    exact TTLCache.get_stale _ tF k ⟨pv, t0⟩ hinv.2.2 hinv.1
      (by rw [hinv.2.1]; exact not_le.mp hF)

theorem ttl_absolute_witness :
    PyDict.lookup (((⟨3600, 500, [], []⟩ : TTLCache Nat).set 0 ("k")
        (some 5)).runGets [(5, ("k")), (7, ("x"))]).cache ("k")
      = some ⟨some 5, 0⟩ ∧
    ((((⟨3600, 500, [], []⟩ : TTLCache Nat).set 0 ("k")
        (some 5)).runGets [(5, ("k")), (7, ("x"))]).get 4000 ("k")).1 =
      (if 4000 - 0 ≤ 3600 then some 5 else none) :=
  ttl_absolute ⟨3600, 500, [], []⟩ (by decide) ("k") (some 5) 0
    [(5, ("k")), (7, ("x"))] (by decide) 4000

/-- Claim C5 (counterexample): `clear_all_caches` does NOT remove every
previously stored entry — an unexpired disk-tier entry survives (the
Manager only calls `file_cache.clear_expired()`), and a subsequent
Manager get returns its value rather than absent. -/
theorem clear_all_counterexample :
    Except.map Prod.fst
      (Except.bind ((CacheManager.init Nat).cache_query_result 0 ("SELECT")
          (some (PyVal.other 7)) none)
        (fun m1 => (m1.clear_all_caches 5).get_cached_query_result 5
          ("SELECT") none))
      = .ok (some (PyVal.other 7)) ∧
    ((Except.ok (some (PyVal.other 7)) : Except String (Option (PyVal Nat)))
      ≠ .ok none) := by
  constructor
  · rfl
  · simp

/-- Claim C5 (amended): after `clear_all_caches`, the memory tier is
fully cleared (any get misses) and every expired disk-tier entry is
removed from both the metadata table and the payload files; an
unexpired disk-tier entry, however, survives and remains retrievable. -/
theorem clear_all_scope {V : Type} (m : CacheManager V) (now t2 : Nat)
    (k2 : String) (ck : String)
    (hck : ck ∈ m.file_cache.metadata.map Prod.fst)
    (hexp : m.file_cache._is_expired now ck = true)
    (k : String) (v : Option (PyVal V)) (meta : FCMeta)
    (hfile : PyDict.lookup m.file_cache.files (FileCache._get_cache_key k) =
      some (FileData.good v))
    (hmeta : PyDict.lookup m.file_cache.metadata (FileCache._get_cache_key k) =
      some meta)
    (hfresh : now - meta.timestamp ≤ m.file_cache.ttl_hours * 3600) :
    (((m.clear_all_caches now).memory_cache).get t2 k2).1 = none ∧
    PyDict.lookup ((m.clear_all_caches now).file_cache).metadata ck = none ∧
    PyDict.lookup ((m.clear_all_caches now).file_cache).files ck = none ∧
    (((m.clear_all_caches now).file_cache).get now k).1 = v := by
  have hrm := FileCache.clear_expired_removes m.file_cache now ck hck hexp
  exact ⟨TTLCache.clear_get_none m.memory_cache t2 k2, hrm.1, hrm.2,
    FileCache.clear_expired_keeps m.file_cache now k v meta hfile hmeta hfresh⟩

theorem clear_all_scope_witness :
    (((mgrWitness.clear_all_caches 100000).memory_cache).get 100000
      ("mk")).1 = none ∧
    PyDict.lookup ((mgrWitness.clear_all_caches 100000).file_cache).metadata
      ("old") = none ∧
    PyDict.lookup ((mgrWitness.clear_all_caches 100000).file_cache).files
      ("old") = none ∧
    (((mgrWitness.clear_all_caches 100000).file_cache).get 100000
      ("new")).1 = some (PyVal.other 9) :=
  clear_all_scope mgrWitness 100000 100000 ("mk") ("old") (by decide)
    (by rfl) ("new") (some (PyVal.other 9)) ⟨("new"), 99000, 99000, 0, []⟩
    (by rfl) (by rfl) (by decide)

/-- Claim C6: tier-selection policy — a Manager-stored query result
goes to the memory tier exactly when it is a Python list with fewer
than 100 elements, and to the disk tier otherwise. -/
theorem tier_selection {V : Type} (m : CacheManager V) (now : Nat)
    (query : String) (result : Option (PyVal V))
    (params : Option (List PyObj)) (key : String)
    (hk : get_query_cache_key query params = .ok key) :
    m.cache_query_result now query result params =
      .ok (if CacheManager.isSmallList result
        then { m with memory_cache := m.memory_cache.set now key result }
        else { m with file_cache :=
          (m.file_cache.set now key result
            [(("query_length"), query.length)]) }) := by
  unfold CacheManager.cache_query_result
  rw [hk]
  dsimp only
  by_cases hs : CacheManager.isSmallList result = true
  · simp only [if_pos hs]
  · simp only [if_neg hs]

theorem tier_selection_witness :
    (CacheManager.init Nat).cache_query_result 0 ("q")
        (some (PyVal.list [1, 2, 3])) none =
      .ok (if CacheManager.isSmallList (some (PyVal.list [1, 2, 3]))
        then { CacheManager.init Nat with
               memory_cache := (CacheManager.init Nat).memory_cache.set 0
                 (keyOf ("q") none) (some (PyVal.list [1, 2, 3])) }
        else { CacheManager.init Nat with
               file_cache := ((CacheManager.init Nat).file_cache.set 0
                 (keyOf ("q") none) (some (PyVal.list [1, 2, 3]))
                 [(("query_length"), ("q").length)]) }) :=
  tier_selection (CacheManager.init Nat) 0 ("q") (some (PyVal.list [1, 2, 3]))
    none (keyOf ("q") none) (by rfl)

/-- Claim C7: tier fallthrough — the Manager probes memory first and
then disk; a value stored only in the disk tier (memory has no binding
for the derived key) is still returned by the Manager's unified get,
as long as the disk entry is unexpired. -/
theorem tier_fallthrough {V : Type} (m : CacheManager V) (query : String)
    (params : Option (List PyObj)) (key : String)
    (hk : get_query_cache_key query params = .ok key)
    (hmem : PyDict.lookup m.memory_cache.cache key = none)
    (t0 t1 : Nat) (hfresh : t1 - t0 ≤ m.file_cache.ttl_hours * 3600)
    (v : Option (PyVal V)) (tags : List (String × Nat)) :
    Except.map Prod.fst
      (({ m with file_cache := m.file_cache.set t0 key v tags
        }).get_cached_query_result t1 query params) = .ok v := by
  unfold CacheManager.get_cached_query_result
  rw [hk]
  dsimp only
  unfold CacheManager.lookupTiers
  dsimp only
  have h1 : (m.memory_cache.get t1 key).1 = none := by
    rw [TTLCache.get_of_lookup_none m.memory_cache t1 key hmem]
  rw [h1]
  dsimp only
  rw [FileCache.set_get_value m.file_cache t0 t1 key v tags hfresh]
  rfl

theorem tier_fallthrough_witness :
    Except.map Prod.fst
      (({ CacheManager.init Nat with
          file_cache := (CacheManager.init Nat).file_cache.set 0
            (keyOf ("q") none) (some (PyVal.other 3)) []
        }).get_cached_query_result 10 ("q") none)
      = .ok (some (PyVal.other 3)) :=
  tier_fallthrough (CacheManager.init Nat) ("q") none (keyOf ("q") none)
    (by rfl) (by rfl) 0 10 (by decide) (some (PyVal.other 3)) []

/-- Claim C9: disk-tier fault isolation — a key whose payload file is
missing or unreadable, or whose metadata record is absent, resolves as
a miss without changing the state and without raising (the model's
`get` is total), and any other intact, unexpired entry remains
retrievable afterwards. -/
theorem fault_isolation {V : Type} (fc : FileCache V) (now : Nat)
    (k k' : String)
    (hbad : PyDict.lookup fc.files (FileCache._get_cache_key k) = none ∨
        PyDict.lookup fc.files (FileCache._get_cache_key k) =
          some FileData.corrupt ∨
        PyDict.lookup fc.metadata (FileCache._get_cache_key k) = none)
    (v : Option V) (meta : FCMeta)
    (hfile : PyDict.lookup fc.files (FileCache._get_cache_key k') =
      some (FileData.good v))
    (hmeta : PyDict.lookup fc.metadata (FileCache._get_cache_key k') =
      some meta)
    (hfresh : now - meta.timestamp ≤ fc.ttl_hours * 3600) :
    fc.get now k = (none, fc) ∧ (((fc.get now k).2).get now k').1 = v := by
  have hmiss := FileCache.get_miss_state fc now k hbad
  refine ⟨hmiss, ?_⟩
  rw [hmiss]
  exact FileCache.fcGet_hit fc now k' v meta hfile hmeta hfresh

theorem fault_isolation_witness :
    fcWitness.get 5 ("bad") = (none, fcWitness) ∧
    (((fcWitness.get 5 ("bad")).2).get 5 ("ok")).1 = some 7 :=
  fault_isolation fcWitness 5 ("bad") ("ok")
    (Or.inr (Or.inl (by rfl))) (some 7) ⟨("ok"), 0, 0, 0, []⟩
    (by rfl) (by rfl) (by decide)

/-- Claim C10: a memory-cached None is indistinguishable from a miss —
after `set(k, None)` the memory tier's `get(k)` returns the same
absent sentinel `None` as an unknown key, and whenever the memory tier
returns `None` the Manager's unified lookup continues to the disk tier
and returns the disk tier's answer. -/
theorem none_is_miss {V : Type} (c : TTLCache V)
    (hnd : (c.cache.map Prod.fst).Nodup) (k : String) (t0 t1 : Nat)
    (m : CacheManager V) (query : String) (params : Option (List PyObj))
    (key : String) (hk : get_query_cache_key query params = .ok key)
    (t : Nat) (hmem : (m.memory_cache.get t key).1 = none) :
    ((c.set t0 k none).get t1 k).1 = none ∧
    Except.map Prod.fst (m.get_cached_query_result t query params) =
      .ok ((m.file_cache.get t key).1) := by
  constructor
  · by_cases hF : t1 - t0 ≤ c.ttl_seconds
    · exact TTLCache.get_hit_fst _ t1 k ⟨none, t0⟩
        (TTLCache.set_lookup c t0 k none)
        (by rw [TTLCache.set_ttl]; exact hF)
    · exact TTLCache.get_stale _ t1 k ⟨none, t0⟩
        (TTLCache.set_nodup c t0 k none hnd)
        (TTLCache.set_lookup c t0 k none)
        (by rw [TTLCache.set_ttl]; exact not_le.mp hF)
  · unfold CacheManager.get_cached_query_result
    rw [hk]
    dsimp only
    unfold CacheManager.lookupTiers
    rw [hmem]
    rfl

theorem none_is_miss_witness :
    (((⟨3600, 500, [], []⟩ : TTLCache Nat).set 0 ("k") none).get 1
      ("k")).1 = none ∧
    Except.map Prod.fst ((CacheManager.init Nat).get_cached_query_result 0
        ("q") none) =
      .ok (((CacheManager.init Nat).file_cache.get 0 (keyOf ("q") none)).1) :=
  none_is_miss ⟨3600, 500, [], []⟩ (by decide) ("k") 0 1
    (CacheManager.init Nat) ("q") none (keyOf ("q") none) (by rfl) 0 (by rfl)

end Catalog
